import Mathlib

/-!
A shallow embedding of `src/risk_manager.py` from galafis/risk-management-system.

Python floats are modelled as exact rationals `ℚ`; the square roots taken by
`np.std` and by the Sharpe/volatility annualisation land in `ℝ`.  Python's
`ValueError` is modelled with `Except String`.  The `timestamp` field of
`Position` (set to `datetime.now()` and read by no computation in the module)
is omitted.  Python's insertion-ordered `dict` of positions is modelled as a
list of `Position` records updated in place, which agrees with the dict as
long as symbols are unique, an invariant the operations preserve.
-/

namespace RiskSys

/-- The `RiskLevel` enum (risk_manager.py lines 13-17). -/
inductive RiskLevel where
  | LOW
  | MEDIUM
  | HIGH
  | CRITICAL
  deriving DecidableEq, Repr

/-- The `Position` dataclass (lines 19-25); the `timestamp` field is omitted
(impure wall-clock value, never read). -/
structure Position where
  symbol : String
  quantity : ℚ
  entry_price : ℚ
  current_price : ℚ
  deriving DecidableEq, Repr

/-- `Position.market_value` (lines 27-29): `quantity * current_price`. -/
def Position.market_value (p : Position) : ℚ :=
  p.quantity * p.current_price

/-- `Position.pnl` (lines 31-33): `(current_price - entry_price) * quantity`. -/
def Position.pnl (p : Position) : ℚ :=
  (p.current_price - p.entry_price) * p.quantity

/-- `Position.pnl_percent` (lines 35-37): `(current_price / entry_price - 1) * 100`. -/
def Position.pnl_percent (p : Position) : ℚ :=
  (p.current_price / p.entry_price - 1) * 100

/-- The `RiskMetrics` dataclass (lines 39-50).  The two fields that are scaled
by a square root are real-valued; the rest stay rational. -/
structure RiskMetrics where
  portfolio_value : ℚ
  total_exposure : ℚ
  var_95 : ℚ
  var_99 : ℚ
  expected_shortfall : ℚ
  max_drawdown : ℚ
  sharpe_ratio : ℝ
  volatility : ℝ
  beta : ℚ
  risk_level : RiskLevel

/-- The mutable state of a `RiskManager` (lines 64-86). -/
structure RiskManager where
  initial_capital : ℚ
  current_capital : ℚ
  max_position_size : ℚ
  max_portfolio_risk : ℚ
  stop_loss_percent : ℚ
  positions : List Position
  equity_curve : List ℚ
  returns_history : List ℚ
  deriving DecidableEq, Repr

/-- `RiskManager.__init__` (lines 64-86): the equity curve is seeded with the
initial capital, positions and returns history start empty. -/
def mkRiskManager (initial_capital max_position_size max_portfolio_risk
    stop_loss_percent : ℚ) : RiskManager :=
  { initial_capital := initial_capital
    current_capital := initial_capital
    max_position_size := max_position_size
    max_portfolio_risk := max_portfolio_risk
    stop_loss_percent := stop_loss_percent
    positions := []
    equity_curve := [initial_capital]
    returns_history := [] }

/-- Python's `int(x)` on a float: truncation toward zero. -/
def pyInt (q : ℚ) : ℤ :=
  if 0 ≤ q then ⌊q⌋ else ⌈q⌉

/-- `np.mean`: sum over length (`0 / 0 = 0` on the empty list, where NumPy
would produce NaN; no claim touches that case). -/
def npMean (l : List ℚ) : ℚ :=
  l.sum / l.length

/-- The population variance, i.e. the square of `np.std`. -/
def npVariance (l : List ℚ) : ℚ :=
  npMean (l.map (fun x => (x - npMean l) ^ 2))

/-- `np.std`: square root of the population variance. -/
noncomputable def npStd (l : List ℚ) : ℝ :=
  Real.sqrt (npVariance l)

/-- Linear interpolation at fractional index `r` into a list `s` (NumPy's
default percentile interpolation, applied to the sorted data). -/
def interpAt (s : List ℚ) (r : ℚ) : ℚ :=
  let k : ℤ := ⌊r⌋
  let d : ℚ := r - (k : ℚ)
  let lo := s.getD k.toNat 0
  let hi := s.getD (k.toNat + 1) lo
  lo + d * (hi - lo)

/-- `np.percentile(l, q)` with the default linear interpolation: sort the
data, then interpolate at rank `q / 100 * (n - 1)`. -/
def npPercentile (q : ℚ) (l : List ℚ) : ℚ :=
  let s := l.insertionSort (· ≤ ·)
  interpAt s (q * ((s.length : ℚ) - 1) / 100)

/-- `np.diff(e) / e[:-1]` (line 233): element-wise relative change between
consecutive entries. -/
def npDiffRel (l : List ℚ) : List ℚ :=
  List.zipWith (fun a b => (b - a) / a) l l.tail

/-- The `method == 'historical'` branch of `RiskManager.calculate_var`
(lines 135-136): the `(1 - confidence_level) * 100`-th percentile. -/
def calculate_var_historical (returns : List ℚ) (confidence_level : ℚ) : ℚ :=
  npPercentile ((1 - confidence_level) * 100) returns

/-- `RiskManager.calculate_var` (lines 120-143).  The historical branch takes
a percentile; the parametric branch returns `mean + z * std` where
`z = -1.645` when `confidence_level == 0.95` and `-2.326` otherwise; any other
method string raises `ValueError`. -/
noncomputable def calculate_var (returns : List ℚ) (confidence_level : ℚ)
    (method : String) : Except String ℝ :=
  if method = "historical" then
    Except.ok ((calculate_var_historical returns confidence_level : ℚ) : ℝ)
  else if method = "parametric" then
    Except.ok (((npMean returns : ℚ) : ℝ) +
      (if confidence_level = 95 / 100 then (-1645 / 1000 : ℝ) else -2326 / 1000) *
        npStd returns)
  else
    Except.error ("Unknown method: " ++ method)

/-- `RiskManager.calculate_expected_shortfall` (lines 145-159): historical VaR
at the given confidence (the default method), then the mean of all returns at
or below it. -/
def calculate_expected_shortfall (returns : List ℚ) (confidence_level : ℚ) : ℚ :=
  let var := calculate_var_historical returns confidence_level
  npMean (returns.filter (fun x => decide (x ≤ var)))

/-- The loop of `RiskManager.calculate_max_drawdown` (lines 174-179), carrying
the running peak and the running maximum drawdown. -/
def maxDrawdownGo (curve : List ℚ) (peak max_dd : ℚ) : ℚ :=
  match curve with
  | [] => max_dd
  | value :: rest =>
    let peak' := if value > peak then value else peak
    let dd := (peak' - value) / peak'
    let max_dd' := if dd > max_dd then dd else max_dd
    maxDrawdownGo rest peak' max_dd'

/-- `RiskManager.calculate_max_drawdown` (lines 161-181): peak starts at the
first element (Python indexes `equity_curve[0]`; the claims only use non-empty
curves), the maximum drawdown starts at 0. -/
def calculate_max_drawdown (equity_curve : List ℚ) : ℚ :=
  maxDrawdownGo equity_curve (equity_curve.headD 0) 0

open Classical in
/-- `RiskManager.calculate_sharpe_ratio` (lines 183-203). -/
noncomputable def calculate_sharpe_ratio (returns : List ℚ)
    (risk_free_rate : ℚ) : ℝ :=
  if returns.length = 0 then 0
  else
    let excess_returns := returns.map (fun x => x - risk_free_rate / 252)
    if npStd excess_returns = 0 then 0
    else Real.sqrt 252 * ((npMean excess_returns : ℚ) : ℝ) / npStd excess_returns

/-- `sum(pos.market_value for pos in self.positions.values())` (line 228). -/
def portfolio_value (rm : RiskManager) : ℚ :=
  (rm.positions.map Position.market_value).sum

/-- `RiskManager._determine_risk_level` (lines 272-286). -/
def determine_risk_level (max_drawdown var_95 portfolio_val : ℚ) : RiskLevel :=
  let var_percent := if portfolio_val > 0 then |var_95 / portfolio_val| else 0
  if max_drawdown > 25 / 100 ∨ var_percent > 10 / 100 then RiskLevel.CRITICAL
  else if max_drawdown > 15 / 100 ∨ var_percent > 5 / 100 then RiskLevel.HIGH
  else if max_drawdown > 8 / 100 ∨ var_percent > 3 / 100 then RiskLevel.MEDIUM
  else RiskLevel.LOW

/-- `RiskManager.calculate_portfolio_metrics` (lines 221-270).  The VaR and
expected-shortfall calls use the default `'historical'` method, which never
raises, so they appear here through `calculate_var_historical`. -/
noncomputable def calculate_portfolio_metrics (rm : RiskManager) : RiskMetrics :=
  let pv := portfolio_value rm
  let te := (rm.positions.map (fun p => |p.market_value|)).sum
  let returns := if 1 < rm.equity_curve.length then npDiffRel rm.equity_curve else [0]
  let var95 := if 0 < returns.length then calculate_var_historical returns (95 / 100) * pv else 0
  let var99 := if 0 < returns.length then calculate_var_historical returns (99 / 100) * pv else 0
  let es := if 0 < returns.length then calculate_expected_shortfall returns (95 / 100) * pv else 0
  let max_dd := calculate_max_drawdown rm.equity_curve
  let sharpe := calculate_sharpe_ratio returns (2 / 100)
  let vol : ℝ := if 0 < returns.length then npStd returns * Real.sqrt 252 else 0
  { portfolio_value := pv
    total_exposure := te
    var_95 := var95
    var_99 := var99
    expected_shortfall := es
    max_drawdown := max_dd
    sharpe_ratio := sharpe
    volatility := vol
    beta := 1
    risk_level := determine_risk_level max_dd var95 pv }

/-- The write of `self.positions[symbol] = Position(...)` on an
insertion-ordered dict: replace the entry when the key exists, append
otherwise. -/
def dictUpsert (l : List Position) (p : Position) : List Position :=
  if l.any (fun q => q.symbol == p.symbol) then
    l.map (fun q => if q.symbol == p.symbol then p else q)
  else l ++ [p]

/-- `RiskManager.add_position` (lines 288-297): book the position with entry
price = current price = `price` and debit `quantity * price` from capital. -/
def RiskManager.add_position (rm : RiskManager) (symbol : String)
    (quantity price : ℚ) : RiskManager :=
  { rm with
    positions := dictUpsert rm.positions
      { symbol := symbol, quantity := quantity
        entry_price := price, current_price := price }
    current_capital := rm.current_capital - quantity * price }

/-- `RiskManager.update_position_price` (lines 299-302): set the current price
when the symbol is held, do nothing otherwise. -/
def RiskManager.update_position_price (rm : RiskManager) (symbol : String)
    (new_price : ℚ) : RiskManager :=
  { rm with
    positions := rm.positions.map
      (fun p => if p.symbol == symbol then { p with current_price := new_price } else p) }

/-- `RiskManager.close_position` (lines 304-313): on a held symbol, credit the
market value, append `pnl / initial_capital` to the returns history, delete
the position and return the P&L; otherwise return 0 and change nothing. -/
def RiskManager.close_position (rm : RiskManager) (symbol : String) :
    RiskManager × ℚ :=
  match rm.positions.find? (fun p => p.symbol == symbol) with
  | some pos =>
    ({ rm with
        current_capital := rm.current_capital + pos.market_value
        returns_history := rm.returns_history ++ [pos.pnl / rm.initial_capital]
        positions := rm.positions.filter (fun p => !(p.symbol == symbol)) },
      pos.pnl)
  | none => (rm, 0)

/-- `RiskManager.calculate_position_size` (lines 88-118): the minimum of the
capital-exposure share count and the risk-based share count, both truncated
with Python's `int(...)`. -/
def RiskManager.calculate_position_size (rm : RiskManager)
    (price volatility : ℚ) (risk_per_trade : Option ℚ) : ℤ :=
  let rpt := risk_per_trade.getD rm.max_portfolio_risk
  let max_position_value := rm.current_capital * rm.max_position_size
  let risk_amount := rm.current_capital * rpt
  let stop_distance := price * rm.stop_loss_percent
  let risk_based_size := if stop_distance > 0 then risk_amount / stop_distance else 0
  let max_shares := pyInt (max_position_value / price)
  let risk_shares := pyInt risk_based_size
  min max_shares risk_shares

/-- One public operation of the engine, as named in the spec.  The last three
are pure queries: they read the state and mutate nothing. -/
inductive Op where
  | addPos (symbol : String) (quantity price : ℚ)
  | updatePrice (symbol : String) (new_price : ℚ)
  | closePos (symbol : String)
  | calcSize (price volatility : ℚ) (risk_per_trade : Option ℚ)
  | calcMetrics
  | getSummary

/-- The state transition of one public operation (queries leave the state
unchanged, matching the source, which only reads in them). -/
def applyOp (rm : RiskManager) : Op → RiskManager
  | Op.addPos s q p => rm.add_position s q p
  | Op.updatePrice s p => rm.update_position_price s p
  | Op.closePos s => (rm.close_position s).1
  | Op.calcSize _ _ _ => rm
  | Op.calcMetrics => rm
  | Op.getSummary => rm

/-! ## Helper lemmas -/

/-- `calculate_var` with the (default) `'historical'` method never raises and
agrees with `calculate_var_historical`; the metrics aggregator therefore calls
the latter directly. -/
theorem calculate_var_historical_eq (returns : List ℚ) (confidence_level : ℚ) :
    calculate_var returns confidence_level "historical" =
      Except.ok ((calculate_var_historical returns confidence_level : ℚ) : ℝ) := by
  unfold calculate_var
  rw [if_pos rfl]

/-- After replacing every entry keyed by `newp.symbol` with `newp`, a lookup of
that key finds `newp`, provided some entry had the key. -/
theorem find?_map_replace (l : List Position) (newp : Position)
    (h : l.any (fun x => x.symbol == newp.symbol) = true) :
    (l.map (fun x => if x.symbol == newp.symbol then newp else x)).find?
      (fun x => x.symbol == newp.symbol) = some newp := by
  induction l with
  | nil => cases h
  | cons a t ih =>
    rw [List.map_cons]
    by_cases ha : (a.symbol == newp.symbol) = true
    · rw [if_pos ha]
      exact @List.find?_cons_of_pos _ (fun x => x.symbol == newp.symbol) newp _ (by simp)
    · rw [if_neg ha, @List.find?_cons_of_neg _ (fun x => x.symbol == newp.symbol) a _ ha]
      apply ih
      rcases List.any_eq_true.mp h with ⟨x, hx, hpx⟩
      rcases List.mem_cons.mp hx with hxa | hxt
      · exact absurd (hxa ▸ hpx) ha
      · exact List.any_eq_true.mpr ⟨x, hxt, hpx⟩

/-- An upsert of a key that is already present ends with the new entry under
that key. -/
theorem find?_dictUpsert_of_any (l : List Position) (newp : Position)
    (h : l.any (fun x => x.symbol == newp.symbol) = true) :
    (dictUpsert l newp).find? (fun x => x.symbol == newp.symbol) = some newp := by
  unfold dictUpsert
  rw [if_pos h]
  exact find?_map_replace l newp h

/-- Dropping every entry keyed `s` leaves nothing keyed `s` to find. -/
theorem find?_filter_not (l : List Position) (s : String) :
    (l.filter (fun x => !(x.symbol == s))).find? (fun x => x.symbol == s) = none := by
  rw [List.find?_eq_none]
  intro x hx
  have hb := (List.mem_filter.mp hx).2
  simp only [Bool.not_eq_true'] at hb
  simp [hb]

/-- With unique symbols, dropping the entry that a lookup of `s` finds takes
exactly its market value out of the portfolio sum. -/
theorem sum_market_filter_of_find? (l : List Position) (s : String) (pos : Position)
    (hf : l.find? (fun x => x.symbol == s) = some pos)
    (hn : (l.map Position.symbol).Nodup) :
    ((l.filter (fun x => !(x.symbol == s))).map Position.market_value).sum =
      (l.map Position.market_value).sum - pos.market_value := by
  induction l with
  | nil => cases hf
  | cons a t ih =>
    rw [List.map_cons, List.nodup_cons] at hn
    by_cases ha : (a.symbol == s) = true
    · rw [@List.find?_cons_of_pos _ (fun x => x.symbol == s) a t ha] at hf
      have hpos : a = pos := by injection hf
      subst hpos
      have hs : a.symbol = s := by simpa using ha
      have ht : t.filter (fun x => !(x.symbol == s)) = t := by
        rw [List.filter_eq_self]
        intro x hx
        have hxs : x.symbol ≠ s := by
          intro he
          exact hn.1 (by rw [← hs] at he; exact he ▸ List.mem_map_of_mem Position.symbol hx)
        simp [hxs]
      simp only [List.filter_cons, ha, Bool.not_true, if_neg Bool.false_ne_true, ht,
        List.map_cons, List.sum_cons]
      ring
    · rw [@List.find?_cons_of_neg _ (fun x => x.symbol == s) a t ha] at hf
      have hrec := ih hf hn.2
      simp only [List.filter_cons, ha, Bool.not_false, if_pos trivial, List.map_cons,
        List.sum_cons, hrec]
      ring

/-- `close_position` never touches the equity curve (neither branch writes
it). -/
theorem close_position_equity (rm : RiskManager) (s : String) :
    ((rm.close_position s).1).equity_curve = rm.equity_curve := by
  cases h : rm.positions.find? (fun x => x.symbol == s) with
  | none => simp [RiskManager.close_position, h]
  | some pos => simp [RiskManager.close_position, h]

/-! ## Claims -/

/-- C1 (corrected): none of the ledger mutations appends to the equity curve;
`add_position`, `update_position_price` and `close_position` all leave the
equity curve exactly as it was (the source writes the curve only in
`__init__`). -/
theorem c1_mutations_never_append_equity (rm : RiskManager) (s : String) (q p : ℚ) :
    (rm.add_position s q p).equity_curve = rm.equity_curve ∧
    (rm.update_position_price s p).equity_curve = rm.equity_curve ∧
    ((rm.close_position s).1).equity_curve = rm.equity_curve :=
  ⟨rfl, rfl, close_position_equity rm s⟩

/-- C1 counterexample: on a fresh manager, `add_position` changes the
portfolio value (by booking one share at price 1) yet the equity curve is not
strictly longer afterwards. -/
theorem c1_add_position_no_append_cex :
    ¬ (((mkRiskManager 1 1 1 1).add_position "A" 1 1).equity_curve.length >
        (mkRiskManager 1 1 1 1).equity_curve.length) :=
  lt_irrefl 1

/-- C5 counterexample: a 5% gain gives `pnl_percent = 5`, not the fraction
`105 / 100 - 1 = 0.05` the claim states. -/
theorem c5_pnl_percent_cex :
    Position.pnl_percent { symbol := "X", quantity := 1, entry_price := 100, current_price := 105 } ≠
      (105 : ℚ) / 100 - 1 := by
  norm_num [Position.pnl_percent]

/-- C5 (corrected): `pnl_percent` is `current / entry - 1` scaled by 100,
i.e. expressed in percentage points: a 5% gain yields 5, not 0.05. -/
theorem c5_pnl_percent_scaled (pos : Position) (h : pos.entry_price ≠ 0) :
    pos.pnl_percent = 100 * (pos.current_price / pos.entry_price - 1) ∧
    (pos.current_price = 21 / 20 * pos.entry_price → pos.pnl_percent = 5) := by
  constructor
  · unfold Position.pnl_percent
    ring
  · intro hc
    unfold Position.pnl_percent
    rw [hc]
    field_simp
    ring

/-- C5 witness: the corrected statement evaluated on the 5%-gain position. -/
theorem c5_witness :
    ((100 : ℚ) ≠ 0) ∧
    (Position.pnl_percent ⟨"X", 1, 100, 105⟩ = 100 * ((105 : ℚ) / 100 - 1) ∧
      ((105 : ℚ) = 21 / 20 * 100 → Position.pnl_percent ⟨"X", 1, 100, 105⟩ = 5)) :=
  ⟨by norm_num, c5_pnl_percent_scaled ⟨"X", 1, 100, 105⟩ (by norm_num)⟩

/-- C9 (confirmed): `add_position` on a held symbol overwrites the position
and still debits the full `quantity * price`, with no credit for the
overwritten position; repeated adds therefore debit cumulatively. -/
theorem c9_add_overwrite_debits_full (rm : RiskManager) (s : String) (q p : ℚ)
    (h : rm.positions.any (fun x => x.symbol == s) = true) :
    (rm.add_position s q p).current_capital = rm.current_capital - q * p ∧
    (rm.add_position s q p).positions.find? (fun x => x.symbol == s) =
      some { symbol := s, quantity := q, entry_price := p, current_price := p } ∧
    ((rm.add_position s q p).add_position s q p).current_capital =
      rm.current_capital - q * p - q * p := by
  refine ⟨rfl, ?_, rfl⟩
  exact find?_dictUpsert_of_any rm.positions
    { symbol := s, quantity := q, entry_price := p, current_price := p } h

/-- C9 witness: the statement evaluated on a manager holding "A". -/
theorem c9_witness :
    (((mkRiskManager 100 1 1 1).add_position "A" 1 2).positions.any
        (fun x => x.symbol == "A") = true) ∧
    ((((mkRiskManager 100 1 1 1).add_position "A" 1 2).add_position "A" 3 4).current_capital =
        ((mkRiskManager 100 1 1 1).add_position "A" 1 2).current_capital - 3 * 4 ∧
      (((mkRiskManager 100 1 1 1).add_position "A" 1 2).add_position "A" 3 4).positions.find?
          (fun x => x.symbol == "A") =
        some { symbol := "A", quantity := 3, entry_price := 4, current_price := 4 } ∧
      ((((mkRiskManager 100 1 1 1).add_position "A" 1 2).add_position "A" 3 4).add_position "A" 3 4).current_capital =
        ((mkRiskManager 100 1 1 1).add_position "A" 1 2).current_capital - 3 * 4 - 3 * 4) :=
  ⟨by decide, c9_add_overwrite_debits_full ((mkRiskManager 100 1 1 1).add_position "A" 1 2)
    "A" 3 4 (by decide)⟩

/-- C8 (confirmed): `close_position` is a no-op returning 0 on an absent
symbol; on a held symbol it credits the market value, appends the realized
P&L as a fraction of initial capital, returns the P&L, removes the position,
and (with unique symbols) drops exactly its market value from the portfolio
sum. -/
theorem c8_close_position_spec (rm : RiskManager) (s : String) :
    (rm.positions.find? (fun x => x.symbol == s) = none →
      rm.close_position s = (rm, 0)) ∧
    ∀ pos, rm.positions.find? (fun x => x.symbol == s) = some pos →
      (rm.close_position s).1.current_capital = rm.current_capital + pos.market_value ∧
      (rm.close_position s).1.returns_history =
        rm.returns_history ++ [pos.pnl / rm.initial_capital] ∧
      (rm.close_position s).2 = pos.pnl ∧
      (rm.close_position s).1.positions.find? (fun x => x.symbol == s) = none ∧
      ((rm.positions.map Position.symbol).Nodup →
        portfolio_value (rm.close_position s).1 =
          portfolio_value rm - pos.market_value) := by
  constructor
  · intro h
    simp [RiskManager.close_position, h]
  · intro pos h
    have hred : rm.close_position s =
        ({ rm with
            current_capital := rm.current_capital + pos.market_value
            returns_history := rm.returns_history ++ [pos.pnl / rm.initial_capital]
            positions := rm.positions.filter (fun x => !(x.symbol == s)) }, pos.pnl) := by
      unfold RiskManager.close_position
      rw [h]
    rw [hred]
    exact ⟨rfl, rfl, rfl, find?_filter_not rm.positions s,
      fun hn => sum_market_filter_of_find? rm.positions s pos h hn⟩

/-- C8 witness: the held-symbol branch evaluated on a one-position manager. -/
theorem c8_witness :
    (((mkRiskManager 100 1 1 1).add_position "A" 2 10).positions.find?
        (fun x => x.symbol == "A") =
      some { symbol := "A", quantity := 2, entry_price := 10, current_price := 10 }) ∧
    ((((mkRiskManager 100 1 1 1).add_position "A" 2 10).close_position "A").1.current_capital =
        ((mkRiskManager 100 1 1 1).add_position "A" 2 10).current_capital +
          Position.market_value { symbol := "A", quantity := 2, entry_price := 10, current_price := 10 } ∧
      (((mkRiskManager 100 1 1 1).add_position "A" 2 10).close_position "A").1.returns_history =
        ((mkRiskManager 100 1 1 1).add_position "A" 2 10).returns_history ++
          [Position.pnl { symbol := "A", quantity := 2, entry_price := 10, current_price := 10 } /
            ((mkRiskManager 100 1 1 1).add_position "A" 2 10).initial_capital] ∧
      (((mkRiskManager 100 1 1 1).add_position "A" 2 10).close_position "A").2 =
        Position.pnl { symbol := "A", quantity := 2, entry_price := 10, current_price := 10 } ∧
      (((mkRiskManager 100 1 1 1).add_position "A" 2 10).close_position "A").1.positions.find?
          (fun x => x.symbol == "A") = none ∧
      ((((mkRiskManager 100 1 1 1).add_position "A" 2 10).positions.map Position.symbol).Nodup →
        portfolio_value (((mkRiskManager 100 1 1 1).add_position "A" 2 10).close_position "A").1 =
          portfolio_value ((mkRiskManager 100 1 1 1).add_position "A" 2 10) -
            Position.market_value { symbol := "A", quantity := 2, entry_price := 10, current_price := 10 })) :=
  ⟨by decide,
    (c8_close_position_spec ((mkRiskManager 100 1 1 1).add_position "A" 2 10) "A").2
      { symbol := "A", quantity := 2, entry_price := 10, current_price := 10 } (by decide)⟩

/-- Python's `int(...)` of a non-negative float is non-negative. -/
theorem pyInt_nonneg {q : ℚ} (h : 0 ≤ q) : 0 ≤ pyInt q := by
  unfold pyInt
  rw [if_pos h]
  exact Int.floor_nonneg.mpr h

/-- C4 (corrected): the recommended position size is non-negative whenever the
current capital is non-negative, the price is positive and the configured
fractions are non-negative; with capital driven negative by bookings the
source returns a negative share count. -/
theorem c4_position_size_nonneg (rm : RiskManager) (price volatility : ℚ)
    (risk_per_trade : Option ℚ)
    (hcap : 0 ≤ rm.current_capital) (hp : 0 < price)
    (hmps : 0 ≤ rm.max_position_size)
    (hrpt : 0 ≤ risk_per_trade.getD rm.max_portfolio_risk) :
    0 ≤ rm.calculate_position_size price volatility risk_per_trade := by
  simp only [RiskManager.calculate_position_size]
  refine le_min ?_ ?_
  · exact pyInt_nonneg (div_nonneg (mul_nonneg hcap hmps) hp.le)
  · by_cases hsd : price * rm.stop_loss_percent > 0
    · rw [if_pos hsd]
      exact pyInt_nonneg (div_nonneg (mul_nonneg hcap hrpt) hsd.le)
    · rw [if_neg hsd]
      exact pyInt_nonneg le_rfl

/-- C4 witness: the non-negativity statement evaluated on a fresh manager. -/
theorem c4_witness :
    (0 ≤ (mkRiskManager 100000 (1 / 10) (2 / 100) (5 / 100)).current_capital) ∧
    (0 < (150 : ℚ)) ∧
    (0 ≤ (mkRiskManager 100000 (1 / 10) (2 / 100) (5 / 100)).max_position_size) ∧
    (0 ≤ (none : Option ℚ).getD
        (mkRiskManager 100000 (1 / 10) (2 / 100) (5 / 100)).max_portfolio_risk) ∧
    0 ≤ (mkRiskManager 100000 (1 / 10) (2 / 100) (5 / 100)).calculate_position_size
        150 (1 / 4) none :=
  ⟨by norm_num [mkRiskManager], by norm_num, by norm_num [mkRiskManager],
    by norm_num [mkRiskManager, Option.getD],
    c4_position_size_nonneg (mkRiskManager 100000 (1 / 10) (2 / 100) (5 / 100))
      150 (1 / 4) none (by norm_num [mkRiskManager]) (by norm_num)
      (by norm_num [mkRiskManager]) (by norm_num [mkRiskManager, Option.getD])⟩

/-- C4 counterexample: after booking one share at 1200 against capital 100,
the capital is -1100 and the recommended size is -440, a negative share
count (Python's `int` truncates toward zero, keeping the sign). -/
theorem c4_negative_capital_cex :
    ((mkRiskManager 100 (1 / 10) (2 / 100) (5 / 100)).add_position "A" 1 1200).calculate_position_size
        1 (1 / 4) none < 0 := by
  simp only [RiskManager.calculate_position_size, RiskManager.add_position, mkRiskManager,
    Option.getD, pyInt]
  norm_num
  rw [show ((-440 : ℚ)) = ((-440 : ℤ) : ℚ) by norm_num, Int.ceil_intCast,
    show ((-110 : ℚ)) = ((-110 : ℤ) : ℚ) by norm_num, Int.ceil_intCast]
  norm_num

/-- The drawdown loop never lowers its running maximum below 0. -/
theorem maxDrawdownGo_nonneg (curve : List ℚ) (peak max_dd : ℚ) (h : 0 ≤ max_dd) :
    0 ≤ maxDrawdownGo curve peak max_dd := by
  induction curve generalizing peak max_dd with
  | nil => simpa [maxDrawdownGo] using h
  | cons v rest ih =>
    simp only [maxDrawdownGo]
    apply ih
    by_cases hc : ((if v > peak then v else peak) - v) / (if v > peak then v else peak) > max_dd
    · rw [if_pos hc]
      exact h.trans hc.le
    · rw [if_neg hc]
      exact h

/-- With a positive running peak and non-negative equity values, the drawdown
loop keeps its running maximum at most 1. -/
theorem maxDrawdownGo_le_one (curve : List ℚ) (peak max_dd : ℚ) (hpeak : 0 < peak)
    (hmd : max_dd ≤ 1) (hall : ∀ x ∈ curve, 0 ≤ x) :
    maxDrawdownGo curve peak max_dd ≤ 1 := by
  induction curve generalizing peak max_dd with
  | nil => simpa [maxDrawdownGo] using hmd
  | cons v rest ih =>
    simp only [maxDrawdownGo]
    have hv : 0 ≤ v := hall v (List.mem_cons_self v rest)
    have hpeak' : 0 < (if v > peak then v else peak) := by
      by_cases hc : v > peak
      · rw [if_pos hc]
        exact hpeak.trans hc
      · rw [if_neg hc]
        exact hpeak
    have hdd : ((if v > peak then v else peak) - v) / (if v > peak then v else peak) ≤ 1 := by
      rw [div_le_one hpeak']
      linarith
    refine ih _ _ hpeak' ?_ (fun x hx => hall x (List.mem_cons_of_mem v hx))
    by_cases hc : ((if v > peak then v else peak) - v) / (if v > peak then v else peak) > max_dd
    · rw [if_pos hc]
      exact hdd
    · rw [if_neg hc]
      exact hmd

/-- C6 (corrected): on a non-empty curve whose first element is positive and
whose values are all non-negative, the maximum drawdown lies in [0, 1]; with
a negative equity value under a positive peak the source exceeds 1. -/
theorem c6_drawdown_bounds (equity_curve : List ℚ) (hne : equity_curve ≠ [])
    (hpos : 0 < equity_curve.headD 0) (hall : ∀ x ∈ equity_curve, 0 ≤ x) :
    0 ≤ calculate_max_drawdown equity_curve ∧ calculate_max_drawdown equity_curve ≤ 1 :=
  ⟨maxDrawdownGo_nonneg equity_curve (equity_curve.headD 0) 0 le_rfl,
    maxDrawdownGo_le_one equity_curve (equity_curve.headD 0) 0 hpos zero_le_one hall⟩

/-- C6 witness: the bounds evaluated on the curve [4, 2] (drawdown 1/2). -/
theorem c6_witness :
    (([(4 : ℚ), 2] : List ℚ) ≠ []) ∧ (0 < ([(4 : ℚ), 2] : List ℚ).headD 0) ∧
    (∀ x ∈ ([(4 : ℚ), 2] : List ℚ), 0 ≤ x) ∧
    (0 ≤ calculate_max_drawdown [4, 2] ∧ calculate_max_drawdown [4, 2] ≤ 1) :=
  ⟨by simp, by norm_num, by norm_num,
    c6_drawdown_bounds [4, 2] (by simp) (by norm_num) (by norm_num)⟩

/-- C6 counterexample: the curve [100, -50] has nonzero running peaks (both
100), yet its maximum drawdown is 3/2, above the claimed upper bound 1. -/
theorem c6_drawdown_above_one_cex :
    1 < calculate_max_drawdown [100, -50] := by
  norm_num [calculate_max_drawdown, maxDrawdownGo]

/-! ## Singleton statistics, for the frozen equity curve -/

/-- The percentile of a one-element sample is that element, at every `q`. -/
theorem npPercentile_singleton (q x : ℚ) : npPercentile q [x] = x := by
  simp [npPercentile, interpAt, List.insertionSort, List.orderedInsert,
    Int.floor_zero, Int.toNat_zero, List.getD_cons_zero, List.getD_cons_succ, List.getD_nil]

/-- Historical VaR of a one-element sample is that element. -/
theorem calculate_var_historical_singleton (x confidence_level : ℚ) :
    calculate_var_historical [x] confidence_level = x :=
  npPercentile_singleton _ x

/-- Expected shortfall of a one-element sample is that element. -/
theorem calculate_expected_shortfall_singleton (x confidence_level : ℚ) :
    calculate_expected_shortfall [x] confidence_level = x := by
  simp [calculate_expected_shortfall, calculate_var_historical_singleton, npMean]

/-- The population variance of a one-element sample is 0. -/
theorem npVariance_singleton (x : ℚ) : npVariance [x] = 0 := by
  simp [npVariance, npMean]

/-- `np.std` of a one-element sample is 0. -/
theorem npStd_singleton (x : ℚ) : npStd [x] = 0 := by
  rw [npStd, npVariance_singleton]
  simp [Real.sqrt_zero]

/-- The Sharpe ratio of a one-element sample is 0: the excess-return standard
deviation is 0, so the guard in the source returns 0. -/
theorem calculate_sharpe_ratio_singleton (x risk_free_rate : ℚ) :
    calculate_sharpe_ratio [x] risk_free_rate = 0 := by
  simp only [calculate_sharpe_ratio]
  rw [if_neg (by simp), List.map_cons, List.map_nil, if_pos (npStd_singleton _)]

/-- One step of the drawdown loop on a one-element curve yields 0. -/
theorem calculate_max_drawdown_singleton (x : ℚ) : calculate_max_drawdown [x] = 0 := by
  simp [calculate_max_drawdown, maxDrawdownGo, lt_irrefl]

/-- The risk classifier maps zero drawdown and zero VaR to LOW at every
portfolio value. -/
theorem determine_risk_level_zero (pv : ℚ) :
    determine_risk_level 0 0 pv = RiskLevel.LOW := by
  simp only [determine_risk_level]
  rw [show (if pv > 0 then |(0 : ℚ) / pv| else 0) = 0 by
    by_cases h : pv > 0 <;> simp [h]]
  norm_num

/-- No public operation changes the equity curve. -/
theorem applyOp_equity (rm : RiskManager) (op : Op) :
    (applyOp rm op).equity_curve = rm.equity_curve := by
  cases op with
  | addPos s q p => rfl
  | updatePrice s p => rfl
  | closePos s => exact close_position_equity rm s
  | calcSize p v r => rfl
  | calcMetrics => rfl
  | getSummary => rfl

/-- No finite sequence of public operations changes the equity curve. -/
theorem foldl_applyOp_equity (ops : List Op) (rm : RiskManager) :
    (List.foldl applyOp rm ops).equity_curve = rm.equity_curve := by
  induction ops generalizing rm with
  | nil => rfl
  | cons op t ih => rw [List.foldl_cons, ih, applyOp_equity]

/-- On a state whose equity curve is a single entry, every metric that is
derived from the curve degenerates: the return sample is `[0]` and all the
risk statistics vanish, with risk level LOW. -/
theorem metrics_of_singleton_curve (rm : RiskManager) (ic : ℚ)
    (h : rm.equity_curve = [ic]) :
    (calculate_portfolio_metrics rm).max_drawdown = 0 ∧
    (calculate_portfolio_metrics rm).var_95 = 0 ∧
    (calculate_portfolio_metrics rm).var_99 = 0 ∧
    (calculate_portfolio_metrics rm).expected_shortfall = 0 ∧
    (calculate_portfolio_metrics rm).sharpe_ratio = 0 ∧
    (calculate_portfolio_metrics rm).volatility = 0 ∧
    (calculate_portfolio_metrics rm).risk_level = RiskLevel.LOW := by
  simp [calculate_portfolio_metrics, h, calculate_max_drawdown_singleton,
    calculate_var_historical_singleton, calculate_expected_shortfall_singleton,
    calculate_sharpe_ratio_singleton, npStd_singleton, determine_risk_level_zero]

/-- C2 (confirmed): after every finite sequence of public operations the
equity curve is still exactly `[initial_capital]`, and consequently every
metrics snapshot has zero drawdown, VaR, expected shortfall, Sharpe ratio and
volatility, and risk level LOW, regardless of positions held. -/
theorem c2_equity_curve_frozen (ic mps mpr slp : ℚ) (hic : 0 < ic) (ops : List Op) :
    (List.foldl applyOp (mkRiskManager ic mps mpr slp) ops).equity_curve = [ic] ∧
    (calculate_portfolio_metrics (List.foldl applyOp (mkRiskManager ic mps mpr slp) ops)).max_drawdown = 0 ∧
    (calculate_portfolio_metrics (List.foldl applyOp (mkRiskManager ic mps mpr slp) ops)).var_95 = 0 ∧
    (calculate_portfolio_metrics (List.foldl applyOp (mkRiskManager ic mps mpr slp) ops)).var_99 = 0 ∧
    (calculate_portfolio_metrics (List.foldl applyOp (mkRiskManager ic mps mpr slp) ops)).expected_shortfall = 0 ∧
    (calculate_portfolio_metrics (List.foldl applyOp (mkRiskManager ic mps mpr slp) ops)).sharpe_ratio = 0 ∧
    (calculate_portfolio_metrics (List.foldl applyOp (mkRiskManager ic mps mpr slp) ops)).volatility = 0 ∧
    (calculate_portfolio_metrics (List.foldl applyOp (mkRiskManager ic mps mpr slp) ops)).risk_level = RiskLevel.LOW := by
  have hcurve : (List.foldl applyOp (mkRiskManager ic mps mpr slp) ops).equity_curve = [ic] :=
    foldl_applyOp_equity ops (mkRiskManager ic mps mpr slp)
  exact ⟨hcurve, metrics_of_singleton_curve _ ic hcurve⟩

/-- C2 witness: the statement evaluated for initial capital 1 after an add,
an update, a close and a metrics query. -/
theorem c2_witness :
    (0 < (1 : ℚ)) ∧
    ((List.foldl applyOp (mkRiskManager 1 1 1 1)
        [Op.addPos "A" 1 1, Op.updatePrice "A" 2, Op.calcMetrics, Op.closePos "A"]).equity_curve = [1] ∧
      (calculate_portfolio_metrics (List.foldl applyOp (mkRiskManager 1 1 1 1)
        [Op.addPos "A" 1 1, Op.updatePrice "A" 2, Op.calcMetrics, Op.closePos "A"])).max_drawdown = 0 ∧
      (calculate_portfolio_metrics (List.foldl applyOp (mkRiskManager 1 1 1 1)
        [Op.addPos "A" 1 1, Op.updatePrice "A" 2, Op.calcMetrics, Op.closePos "A"])).var_95 = 0 ∧
      (calculate_portfolio_metrics (List.foldl applyOp (mkRiskManager 1 1 1 1)
        [Op.addPos "A" 1 1, Op.updatePrice "A" 2, Op.calcMetrics, Op.closePos "A"])).var_99 = 0 ∧
      (calculate_portfolio_metrics (List.foldl applyOp (mkRiskManager 1 1 1 1)
        [Op.addPos "A" 1 1, Op.updatePrice "A" 2, Op.calcMetrics, Op.closePos "A"])).expected_shortfall = 0 ∧
      (calculate_portfolio_metrics (List.foldl applyOp (mkRiskManager 1 1 1 1)
        [Op.addPos "A" 1 1, Op.updatePrice "A" 2, Op.calcMetrics, Op.closePos "A"])).sharpe_ratio = 0 ∧
      (calculate_portfolio_metrics (List.foldl applyOp (mkRiskManager 1 1 1 1)
        [Op.addPos "A" 1 1, Op.updatePrice "A" 2, Op.calcMetrics, Op.closePos "A"])).volatility = 0 ∧
      (calculate_portfolio_metrics (List.foldl applyOp (mkRiskManager 1 1 1 1)
        [Op.addPos "A" 1 1, Op.updatePrice "A" 2, Op.calcMetrics, Op.closePos "A"])).risk_level = RiskLevel.LOW) :=
  ⟨one_pos, c2_equity_curve_frozen 1 1 1 1 one_pos
    [Op.addPos "A" 1 1, Op.updatePrice "A" 2, Op.calcMetrics, Op.closePos "A"]⟩

/-- C3 counterexample: `parametric` VaR at confidence 0.5 returns a value
instead of failing: no invalid-argument error reaches the caller. -/
theorem c3_parametric_no_error_cex :
    (calculate_var [0] (1 / 2) "parametric").isOk = true := by
  unfold calculate_var
  rw [if_neg (by decide), if_pos rfl]
  rfl

/-- C3 (corrected): for every confidence level other than 0.95 (and in
particular every level other than 0.95/0.99), the `parametric` method silently
uses the 0.99 z-score -2.326 and returns `mean + z * std`; only an
unrecognized method string raises. -/
theorem c3_parametric_silent_default (returns : List ℚ) (confidence_level : ℚ)
    (h95 : confidence_level ≠ 95 / 100) (h99 : confidence_level ≠ 99 / 100) :
    calculate_var returns confidence_level "parametric" =
      Except.ok (((npMean returns : ℚ) : ℝ) + (-2326 / 1000) * npStd returns) := by
  unfold calculate_var
  rw [if_neg (by decide), if_pos rfl, if_neg h95]

/-- C3 witness: the corrected statement evaluated at confidence 0.5. -/
theorem c3_witness :
    ((1 / 2 : ℚ) ≠ 95 / 100) ∧ ((1 / 2 : ℚ) ≠ 99 / 100) ∧
    calculate_var [0] (1 / 2) "parametric" =
      Except.ok (((npMean [0] : ℚ) : ℝ) + (-2326 / 1000) * npStd [0]) :=
  ⟨by norm_num, by norm_num,
    c3_parametric_silent_default [0] (1 / 2) (by norm_num) (by norm_num)⟩

/-! ## Percentile interpolation lemmas -/

/-- The default value of an in-range `getD` is irrelevant. -/
theorem getD_eq_getD_zero {s : List ℚ} {i : ℕ} (d : ℚ) (h : i < s.length) :
    s.getD i d = s.getD i 0 := by
  rw [List.getD_eq_get s d h, List.getD_eq_get s 0 h]

/-- An in-range `getD` is a member of the list. -/
theorem getD_mem_of_lt {s : List ℚ} {i : ℕ} (d : ℚ) (h : i < s.length) :
    s.getD i d ∈ s := by
  rw [List.getD_eq_get s d h]
  exact s.get_mem i h

/-- Indexing a sorted list is monotone. -/
theorem sorted_getD_mono {s : List ℚ} (hs : List.Sorted (· ≤ ·) s) {i j : ℕ}
    (hij : i ≤ j) (hj : j < s.length) : s.getD i 0 ≤ s.getD j 0 := by
  have hi : i < s.length := lt_of_le_of_lt hij hj
  rw [List.getD_eq_get s 0 hi, List.getD_eq_get s 0 hj]
  exact hs.rel_get_of_le hij

/-- Linear interpolation into a sorted list is monotone in the fractional
rank, over the in-range ranks `[0, n-1]`. -/
theorem interpAt_mono {s : List ℚ} (hs : List.Sorted (· ≤ ·) s) {r1 r2 : ℚ}
    (h0 : 0 ≤ r1) (h12 : r1 ≤ r2) (htop : r2 ≤ (s.length : ℚ) - 1) :
    interpAt s r1 ≤ interpAt s r2 := by
  have h02 : 0 ≤ r2 := h0.trans h12
  have hK1 : 0 ≤ ⌊r1⌋ := Int.floor_nonneg.mpr h0
  have hK2 : 0 ≤ ⌊r2⌋ := Int.floor_nonneg.mpr h02
  have hK12 : ⌊r1⌋ ≤ ⌊r2⌋ := Int.floor_mono h12
  have hK2top : ⌊r2⌋ ≤ (s.length : ℤ) - 1 := by
    have hcast : r2 ≤ (((s.length : ℤ) - 1 : ℤ) : ℚ) := by
      push_cast
      exact htop
    have hfl := Int.floor_mono hcast
    rwa [Int.floor_intCast] at hfl
  have hk2lt : ⌊r2⌋.toNat < s.length := by omega
  have hk1lt : ⌊r1⌋.toNat < s.length := by omega
  have hd1a : 0 ≤ r1 - (⌊r1⌋ : ℚ) := sub_nonneg.mpr (Int.floor_le r1)
  have hd2a : 0 ≤ r2 - (⌊r2⌋ : ℚ) := sub_nonneg.mpr (Int.floor_le r2)
  have hd1b : r1 - (⌊r1⌋ : ℚ) ≤ 1 := by
    have := Int.lt_floor_add_one r1
    linarith
  have hlohi1 : s.getD ⌊r1⌋.toNat 0 ≤ s.getD (⌊r1⌋.toNat + 1) (s.getD ⌊r1⌋.toNat 0) := by
    rcases lt_or_le (⌊r1⌋.toNat + 1) s.length with hlt | hge
    · rw [getD_eq_getD_zero _ hlt]
      exact sorted_getD_mono hs (Nat.le_succ _) hlt
    · rw [List.getD_eq_default s _ hge]
  have hlohi2 : s.getD ⌊r2⌋.toNat 0 ≤ s.getD (⌊r2⌋.toNat + 1) (s.getD ⌊r2⌋.toNat 0) := by
    rcases lt_or_le (⌊r2⌋.toNat + 1) s.length with hlt | hge
    · rw [getD_eq_getD_zero _ hlt]
      exact sorted_getD_mono hs (Nat.le_succ _) hlt
    · rw [List.getD_eq_default s _ hge]
  simp only [interpAt]
  rcases eq_or_lt_of_le hK12 with heq | hlt
  · have hk : ⌊r2⌋ = ⌊r1⌋ := heq.symm
    rw [hk]
    have hd12 : r1 - (⌊r1⌋ : ℚ) ≤ r2 - (⌊r1⌋ : ℚ) := by linarith
    have hm := mul_le_mul_of_nonneg_right hd12 (sub_nonneg.mpr hlohi1)
    linarith
  · have hk1k2 : ⌊r1⌋.toNat + 1 ≤ ⌊r2⌋.toNat := by omega
    have hsucclt : ⌊r1⌋.toNat + 1 < s.length := lt_of_le_of_lt hk1k2 hk2lt
    calc s.getD ⌊r1⌋.toNat 0 + (r1 - (⌊r1⌋ : ℚ)) *
          (s.getD (⌊r1⌋.toNat + 1) (s.getD ⌊r1⌋.toNat 0) - s.getD ⌊r1⌋.toNat 0)
        ≤ s.getD (⌊r1⌋.toNat + 1) (s.getD ⌊r1⌋.toNat 0) := by
          have hm := mul_le_mul_of_nonneg_right hd1b (sub_nonneg.mpr hlohi1)
          linarith
      _ = s.getD (⌊r1⌋.toNat + 1) 0 := getD_eq_getD_zero _ hsucclt
      _ ≤ s.getD ⌊r2⌋.toNat 0 := sorted_getD_mono hs hk1k2 hk2lt
      _ ≤ s.getD ⌊r2⌋.toNat 0 + (r2 - (⌊r2⌋ : ℚ)) *
          (s.getD (⌊r2⌋.toNat + 1) (s.getD ⌊r2⌋.toNat 0) - s.getD ⌊r2⌋.toNat 0) := by
          have hm := mul_nonneg hd2a (sub_nonneg.mpr hlohi2)
          linarith

/-- The interpolated value at an in-range rank sits above some list element. -/
theorem interpAt_exists_le {s : List ℚ} (hs : List.Sorted (· ≤ ·) s) {r : ℚ}
    (h0 : 0 ≤ r) (htop : r ≤ (s.length : ℚ) - 1) :
    ∃ a ∈ s, a ≤ interpAt s r := by
  have hK : 0 ≤ ⌊r⌋ := Int.floor_nonneg.mpr h0
  have hKtop : ⌊r⌋ ≤ (s.length : ℤ) - 1 := by
    have hcast : r ≤ (((s.length : ℤ) - 1 : ℤ) : ℚ) := by
      push_cast
      exact htop
    have hfl := Int.floor_mono hcast
    rwa [Int.floor_intCast] at hfl
  have hklt : ⌊r⌋.toNat < s.length := by omega
  have hda : 0 ≤ r - (⌊r⌋ : ℚ) := sub_nonneg.mpr (Int.floor_le r)
  have hlohi : s.getD ⌊r⌋.toNat 0 ≤ s.getD (⌊r⌋.toNat + 1) (s.getD ⌊r⌋.toNat 0) := by
    rcases lt_or_le (⌊r⌋.toNat + 1) s.length with hlt | hge
    · rw [getD_eq_getD_zero _ hlt]
      exact sorted_getD_mono hs (Nat.le_succ _) hlt
    · rw [List.getD_eq_default s _ hge]
  refine ⟨s.getD ⌊r⌋.toNat 0, getD_mem_of_lt 0 hklt, ?_⟩
  simp only [interpAt]
  have hm := mul_nonneg hda (sub_nonneg.mpr hlohi)
  linarith

/-- `np.percentile` is monotone in `q` on a non-empty sample. -/
theorem npPercentile_mono (l : List ℚ) (hl : l ≠ []) {q1 q2 : ℚ} (h0 : 0 ≤ q1)
    (h12 : q1 ≤ q2) (h100 : q2 ≤ 100) :
    npPercentile q1 l ≤ npPercentile q2 l := by
  simp only [npPercentile]
  have hs : List.Sorted (· ≤ ·) (l.insertionSort (· ≤ ·)) :=
    List.sorted_insertionSort _ l
  have hlen : 1 ≤ (l.insertionSort (· ≤ ·)).length := by
    rw [(List.perm_insertionSort _ l).length_eq]
    exact List.length_pos.mpr hl
  have hn1 : 0 ≤ ((l.insertionSort (· ≤ ·)).length : ℚ) - 1 := by
    have hcast : (1 : ℚ) ≤ ((l.insertionSort (· ≤ ·)).length : ℚ) := by
      exact_mod_cast hlen
    linarith
  apply interpAt_mono hs
  · exact div_nonneg (mul_nonneg h0 hn1) (by norm_num)
  · have hm := mul_le_mul_of_nonneg_right h12 hn1
    linarith
  · have hm := mul_le_mul_of_nonneg_right h100 hn1
    linarith

/-- On a non-empty sample, some element lies at or below the `q`-th
percentile. -/
theorem npPercentile_exists_le (l : List ℚ) (hl : l ≠ []) {q : ℚ} (h0 : 0 ≤ q)
    (h100 : q ≤ 100) : ∃ a ∈ l, a ≤ npPercentile q l := by
  simp only [npPercentile]
  have hs : List.Sorted (· ≤ ·) (l.insertionSort (· ≤ ·)) :=
    List.sorted_insertionSort _ l
  have hlen : 1 ≤ (l.insertionSort (· ≤ ·)).length := by
    rw [(List.perm_insertionSort _ l).length_eq]
    exact List.length_pos.mpr hl
  have hn1 : 0 ≤ ((l.insertionSort (· ≤ ·)).length : ℚ) - 1 := by
    have hcast : (1 : ℚ) ≤ ((l.insertionSort (· ≤ ·)).length : ℚ) := by
      exact_mod_cast hlen
    linarith
  obtain ⟨a, ha, hle⟩ :=
    @interpAt_exists_le (l.insertionSort (· ≤ ·)) hs
      (q * (((l.insertionSort (· ≤ ·)).length : ℚ) - 1) / 100)
      (div_nonneg (mul_nonneg h0 hn1) (by norm_num))
      (by
        have hm := mul_le_mul_of_nonneg_right h100 hn1
        linarith)
  exact ⟨a, (List.perm_insertionSort _ l).mem_iff.mp ha, hle⟩

/-- C7 (confirmed): on the same non-empty return sample, historical VaR at
confidence 0.99 is at most historical VaR at confidence 0.95 (the deeper
tail's percentile is at least as negative). -/
theorem c7_var99_le_var95 (returns : List ℚ) (h : returns ≠ []) :
    calculate_var_historical returns (99 / 100) ≤
      calculate_var_historical returns (95 / 100) := by
  unfold calculate_var_historical
  rw [show ((1 : ℚ) - 99 / 100) * 100 = 1 by norm_num,
    show ((1 : ℚ) - 95 / 100) * 100 = 5 by norm_num]
  exact npPercentile_mono returns h (by norm_num) (by norm_num) (by norm_num)

/-- C7 witness: the comparison evaluated on a two-element sample. -/
theorem c7_witness :
    (([(1 / 100 : ℚ), -2 / 100] : List ℚ) ≠ []) ∧
    calculate_var_historical [(1 / 100 : ℚ), -2 / 100] (99 / 100) ≤
      calculate_var_historical [(1 / 100 : ℚ), -2 / 100] (95 / 100) :=
  ⟨by simp, c7_var99_le_var95 [(1 / 100 : ℚ), -2 / 100] (by simp)⟩

/-- C10 (confirmed): on a non-empty sample the historical VaR at 0.95 sits at
or above some return, the minimum in particular, so the conditional tail that
`calculate_expected_shortfall` averages over is non-empty. -/
theorem c10_var_ge_min_tail_nonempty (returns : List ℚ) (h : returns ≠ []) :
    (∃ x ∈ returns, x ≤ calculate_var_historical returns (95 / 100)) ∧
    returns.filter
      (fun x => decide (x ≤ calculate_var_historical returns (95 / 100))) ≠ [] ∧
    (∀ m ∈ returns, (∀ x ∈ returns, m ≤ x) →
      m ≤ calculate_var_historical returns (95 / 100)) ∧
    calculate_expected_shortfall returns (95 / 100) =
      npMean (returns.filter
        (fun x => decide (x ≤ calculate_var_historical returns (95 / 100)))) := by
  have hex : ∃ x ∈ returns, x ≤ calculate_var_historical returns (95 / 100) := by
    unfold calculate_var_historical
    rw [show ((1 : ℚ) - 95 / 100) * 100 = 5 by norm_num]
    exact npPercentile_exists_le returns h (by norm_num) (by norm_num)
  obtain ⟨x, hx, hxle⟩ := hex
  refine ⟨⟨x, hx, hxle⟩, ?_, ?_, rfl⟩
  · intro hf
    have hmem : x ∈ returns.filter
        (fun x => decide (x ≤ calculate_var_historical returns (95 / 100))) :=
      List.mem_filter.mpr ⟨hx, decide_eq_true hxle⟩
    rw [hf] at hmem
    cases hmem
  · intro m hm hmin
    exact (hmin x hx).trans hxle

/-- C10 witness: the statement evaluated on a two-element sample. -/
theorem c10_witness :
    (([(2 : ℚ), 1] : List ℚ) ≠ []) ∧
    ((∃ x ∈ ([(2 : ℚ), 1] : List ℚ),
        x ≤ calculate_var_historical [(2 : ℚ), 1] (95 / 100)) ∧
      ([(2 : ℚ), 1] : List ℚ).filter
        (fun x => decide (x ≤ calculate_var_historical [(2 : ℚ), 1] (95 / 100))) ≠ [] ∧
      (∀ m ∈ ([(2 : ℚ), 1] : List ℚ), (∀ x ∈ ([(2 : ℚ), 1] : List ℚ), m ≤ x) →
        m ≤ calculate_var_historical [(2 : ℚ), 1] (95 / 100)) ∧
      calculate_expected_shortfall [(2 : ℚ), 1] (95 / 100) =
        npMean (([(2 : ℚ), 1] : List ℚ).filter
          (fun x => decide (x ≤ calculate_var_historical [(2 : ℚ), 1] (95 / 100))))) :=
  ⟨by simp, c10_var_ge_min_tail_nonempty [(2 : ℚ), 1] (by simp)⟩

end RiskSys
